import Mathlib

/-!
Shallow embedding of the course-quality reporting endpoint
(`cms/djangoapps/contentstore/api/views/course_quality.py`).

The course content tree is modelled as a finitely-branching rose tree of
nodes carrying the attributes the view reads.  Numbers handled by the
statistics helper are modelled as exact rationals.  External collaborators
(query-parameter parsing helper, generic pre-order traversal, the video
metadata service, the scipy mode routine) are not part of the excerpt, so
they are modelled from the specification, each marked in its doc comment.
-/

namespace CourseQuality

/-- Attributes of a content-tree node read by the view. -/
structure NodeData where
  visible_to_staff_only : Bool
  hide_from_toc : Bool
  graded : Bool
  highlights : List String
  block_type : String
  edx_video_id : String
  self_paced : Bool
  highlights_enabled_for_messaging : Bool
deriving Repr, DecidableEq

/-- A node of the course content tree: its attributes and its ordered
children.  A leaf is a node with an empty child list (the Python code
distinguishes a missing `children` attribute from an empty one, but every
consumer goes through `_get_children`, which maps both to the empty list). -/
inductive CNode : Type where
  | node (data : NodeData) (children : List CNode)
deriving Repr

/-- Attribute record of a node. -/
def CNode.data : CNode → NodeData
  | .node d _ => d

/-- Child list of a node (`_get_children`: empty when absent). -/
def CNode.children : CNode → List CNode
  | .node _ cs => cs

/-- The visibility test of `_get_all_children`:
`not s.visible_to_staff_only and not s.hide_from_toc`. -/
def node_visible (c : CNode) : Bool :=
  !c.data.visible_to_staff_only && !c.data.hide_from_toc

/-- `_get_visible_children`: the children that pass the visibility test,
in order. -/
def get_visible_children (parent : CNode) : List CNode :=
  parent.children.filter node_visible

mutual

/-- Modelled from the spec: `traverse_pre_order` (module
`openedx.core.lib.graph_traversals`, not part of the excerpt) as used by
`_get_leaf_blocks`: pre-order traversal from `unit`, descending only into
visible children, yielding exactly the reachable nodes with zero
children. -/
def get_leaf_blocks : CNode → List CNode
  | .node d cs => if cs.isEmpty then [.node d cs] else leaf_blocks_list cs

/-- Traversal of a child list: each visible child contributes its leaf
blocks, in order. -/
def leaf_blocks_list : List CNode → List CNode
  | [] => []
  | c :: rest => (if node_visible c then get_leaf_blocks c else []) ++ leaf_blocks_list rest

end

mutual

/-- All blocks of the subtree rooted at a node, in pre-order, with no
visibility filtering (the document-store scan behind
`modulestore().get_items`). -/
def all_blocks : CNode → List CNode
  | .node d cs => .node d cs :: all_blocks_list cs

/-- All blocks of a forest, in pre-order. -/
def all_blocks_list : List CNode → List CNode
  | [] => []
  | c :: rest => all_blocks c ++ all_blocks_list rest

end

/-- The video blocks of a course:
`modulestore().get_items(course.id, qualifiers=dict(category=video))`. -/
def video_blocks (course : CNode) : List CNode :=
  (all_blocks course).filter (fun b => b.data.block_type == "video")

/-- ASCII lower-casing of one character. -/
def lowerChar (c : Char) : Char :=
  if c.toNat ≥ 65 ∧ c.toNat ≤ 90 then Char.ofNat (c.toNat + 32) else c

/-- ASCII lower-casing of a string. -/
def lowerStr (s : String) : String :=
  String.mk (s.data.map lowerChar)

/-- An incoming request: its query parameters as an association list. -/
structure Request where
  query_params : List (String × String)

/-- Modelled from the spec: the boolean query-parameter parser
(`get_bool_param` of `.utils`, not part of the excerpt): parameters are
case-insensitively parsed from true/false strings. -/
def parse_bool (v : Option String) : Option Bool :=
  match v with
  | none => none
  | some s =>
    if lowerStr s = "true" then some true
    else if lowerStr s = "false" then some false
    else none

/-- Modelled from the spec: `get_bool_param(request, param_name, default)`
returns the parsed value of the parameter when it parses as a boolean and
the supplied default otherwise (in particular when it is absent). -/
def get_bool_param (req : Request) (name : String) (dflt : Bool) : Bool :=
  (parse_bool (req.query_params.lookup name)).getD dflt

/-- Python `min` over a non-empty list (0 as junk value for the empty
list, on which the code never calls it). -/
def listMin : List Rat → Rat
  | [] => 0
  | x :: xs => xs.foldl min x

/-- Python `max` over a non-empty list (0 as junk value for the empty
list, on which the code never calls it). -/
def listMax : List Rat → Rat
  | [] => 0
  | x :: xs => xs.foldl max x

/-- `np.mean`: the exact arithmetic mean. -/
def np_mean (data : List Rat) : Rat :=
  data.sum / (data.length : Rat)

/-- `np.median`: middle element of the sorted data for odd length, mean of
the two middle elements for even length. -/
def np_median (data : List Rat) : Rat :=
  let s := data.insertionSort (· ≤ ·)
  let n := data.length
  if n % 2 = 1 then s.getD (n / 2) 0
  else (s.getD (n / 2 - 1) 0 + s.getD (n / 2) 0) / 2

/-- `np.around` to zero decimals: nearest integer, ties to the even
integer. -/
def np_around (q : Rat) : Int :=
  if q - ⌊q⌋ < 1/2 then ⌊q⌋
  else if (1 : Rat)/2 < q - ⌊q⌋ then ⌊q⌋ + 1
  else if ⌊q⌋ % 2 = 0 then ⌊q⌋ else ⌊q⌋ + 1

/-- Modelled from the spec: `scipy.stats.mode` (external routine) returns
a most frequent value, ties broken by the smallest value. -/
def scipy_mode (data : List Rat) : Rat :=
  listMin (data.filter (fun x => data.all (fun y => data.count y ≤ data.count x)))

/-- The five summary statistics returned by `_stats_dict`. -/
structure StatsSummary where
  min : Option Rat
  max : Option Rat
  mean : Option Rat
  median : Option Rat
  mode : Option Rat
deriving Repr, DecidableEq

/-- `_stats_dict`: all fields `None` on empty data; otherwise exact
min/max, rounded mean and median, and the mode. -/
def stats_dict (data : List Rat) : StatsSummary :=
  if data.isEmpty then
    { min := none, max := none, mean := none, median := none, mode := none }
  else
    { min := some (listMin data)
      max := some (listMax data)
      mean := some ((np_around (np_mean data) : Int) : Rat)
      median := some ((np_around (np_median data) : Int) : Rat)
      mode := some (scipy_mode data) }

/-- The `sections` report section. -/
structure SectionsQuality where
  total_number : Nat
  total_visible : Nat
  number_with_highlights : Nat
  highlights_enabled : Bool
deriving Repr, DecidableEq

/-- `_sections_quality`. -/
def sections_quality (course : CNode) : SectionsQuality :=
  let sections := course.children
  let visible_sections := sections.filter node_visible
  { total_number := sections.length
    total_visible := visible_sections.length
    number_with_highlights := (visible_sections.filter (fun s => !s.data.highlights.isEmpty)).length
    highlights_enabled := course.data.highlights_enabled_for_messaging }

/-- The per-unit record built by `_get_subsections_and_units`. -/
structure UnitInfo where
  num_leaf_blocks : Nat
  leaf_block_types : Finset String
deriving DecidableEq

/-- The record `_get_subsections_and_units` stores for one unit. -/
def unit_info (u : CNode) : UnitInfo :=
  { num_leaf_blocks := (get_leaf_blocks u).length
    leaf_block_types := ((get_leaf_blocks u).map (fun b => b.data.block_type)).toFinset }

/-- `_get_subsections_and_units`: for every visible section, its visible
subsections (graded ones dropped when `exclude_graded` holds), each paired
with the per-unit records of its visible units.  The Python dict keyed by
location is modelled as the list of its entries. -/
def get_subsections_and_units (course : CNode) (exclude_graded : Bool) :
    List (CNode × List (CNode × UnitInfo)) :=
  (((course.children.filter node_visible).map (fun sec =>
    (if exclude_graded then (sec.children.filter node_visible).filter (fun s => !s.data.graded)
     else sec.children.filter node_visible).map (fun sub =>
      (sub, (sub.children.filter node_visible).map (fun u => (u, unit_info u))))))).flatten

/-- `len(set().union(*leaf_block_types_in_subsection))`: size of the union
of the per-unit leaf block type sets of one subsection. -/
def num_block_types_of (units : List (CNode × UnitInfo)) : Nat :=
  ((units.map (fun (p : CNode × UnitInfo) => p.2.leaf_block_types)).foldl (· ∪ ·) ∅).card

/-- The `subsections` report section. -/
structure SubsectionsQuality where
  total_visible : Nat
  num_with_one_block_type : Nat
  num_block_types : StatsSummary
deriving Repr, DecidableEq

/-- `_subsections_quality`. -/
def subsections_quality (course : CNode) (exclude_graded : Bool) : SubsectionsQuality :=
  let vals := (get_subsections_and_units course exclude_graded).map (fun p => num_block_types_of p.2)
  { total_visible := vals.length
    num_with_one_block_type := (vals.filter (fun n => n == 1)).length
    num_block_types := stats_dict (vals.map (fun (n : Nat) => (n : Rat))) }

/-- The `units` report section. -/
structure UnitsQuality where
  total_visible : Nat
  num_blocks : StatsSummary
deriving Repr, DecidableEq

/-- `_units_quality`. -/
def units_quality (course : CNode) (exclude_graded : Bool) : UnitsQuality :=
  let counts := ((get_subsections_and_units course exclude_graded).map (fun p =>
    p.2.map (fun q => q.2.num_leaf_blocks))).flatten
  { total_visible := counts.length
    num_blocks := stats_dict (counts.map (fun (n : Nat) => (n : Rat))) }

/-- One record returned by the external video metadata service. -/
structure VideoRecord where
  edx_video_id : String
  duration : Rat
deriving Repr, DecidableEq

/-- The state of the external video metadata service: which video
identifiers have completed encoding, and the duration recorded for each. -/
structure ValEnv where
  encoded : String → Bool
  duration : String → Rat

/-- Modelled from the spec: `get_videos_for_course` (external `edxval`
API) returns the subset of the video blocks of the course that have
completed encoding, each record carrying its duration. -/
def get_videos_for_course (val : ValEnv) (course : CNode) : List VideoRecord :=
  ((video_blocks course).filter (fun b => val.encoded b.data.edx_video_id)).map
    (fun b => { edx_video_id := b.data.edx_video_id, duration := val.duration b.data.edx_video_id })

/-- The `videos` report section. -/
structure VideosQuality where
  total_number : Nat
  num_mobile_encoded : Nat
  num_with_val_id : Nat
  durations : StatsSummary
deriving Repr, DecidableEq

/-- `_videos_quality`. -/
def videos_quality (val : ValEnv) (course : CNode) : VideosQuality :=
  let video_blocks_in_course := video_blocks course
  let videos_in_val := get_videos_for_course val course
  { total_number := video_blocks_in_course.length
    num_mobile_encoded := videos_in_val.length
    num_with_val_id := (video_blocks_in_course.filter (fun v => v.data.edx_video_id != "")).length
    durations := stats_dict (videos_in_val.map (fun v => v.duration)) }

/-- `_required_course_depth`: `None` models unbounded depth. -/
def required_course_depth (req : Request) (all_requested : Bool) : Option Nat :=
  if get_bool_param req "units" all_requested then none
  else if get_bool_param req "subsections" all_requested then none
  else if get_bool_param req "sections" all_requested then some 1
  else some 0

/-- The assembled response body. -/
structure QualityReport where
  is_self_paced : Bool
  sections : Option SectionsQuality
  subsections : Option SubsectionsQuality
  units : Option UnitsQuality
  videos : Option VideosQuality
deriving Repr, DecidableEq

/-- Outcome of the request: a 403 error or a 200 response. -/
inductive GetResult : Type where
  | forbidden
  | ok (report : QualityReport)
deriving Repr, DecidableEq

/-- The `sections` entry of the response, when a response was produced. -/
def GetResult.sectionsPart : GetResult → Option SectionsQuality
  | .forbidden => none
  | .ok r => r.sections

/-- Operations against the document store, recorded in order. -/
inductive StoreOp : Type where
  | getCourse (depth : Option Nat)
  | getItems
deriving Repr, DecidableEq

/-- The collaborators of one request: the access-control verdict, the
course tree, and the video metadata service. -/
structure Env where
  has_course_author_access : Bool
  course : CNode
  val : ValEnv

/-- `CourseQualityView.get`: the access check, then the depth-hinted
course load and the four optional report sections, together with the
trace of document-store operations. -/
def course_quality_get (env : Env) (req : Request) : GetResult × List StoreOp :=
  let all_requested := get_bool_param req "all" false
  if env.has_course_author_access = false then
    (.forbidden, [])
  else
    let course := env.course
    let exclude_graded := get_bool_param req "exclude_graded" false
    let report : QualityReport :=
      { is_self_paced := course.data.self_paced
        sections :=
          if get_bool_param req "sections" all_requested then some (sections_quality course) else none
        subsections :=
          if get_bool_param req "subsections" all_requested then
            some (subsections_quality course exclude_graded)
          else none
        units :=
          if get_bool_param req "units" all_requested then
            some (units_quality course exclude_graded)
          else none
        videos :=
          if get_bool_param req "videos" all_requested then some (videos_quality env.val course)
          else none }
    (.ok report,
      StoreOp.getCourse (required_course_depth req all_requested) ::
        (if get_bool_param req "videos" all_requested then [StoreOp.getItems] else []))

/-- Rounding to the nearest integer with ties away from zero, written
from the words of the claim, for comparison with `np_around`. -/
def round_half_away_from_zero (q : Rat) : Int :=
  if 0 ≤ q then ⌊q + 1/2⌋ else ⌈q - 1/2⌉

/-- Fixture: attribute record of a plain visible container node. -/
def data0 : NodeData :=
  { visible_to_staff_only := false
    hide_from_toc := false
    graded := false
    highlights := []
    block_type := "chapter"
    edx_video_id := ""
    self_paced := false
    highlights_enabled_for_messaging := false }

/-- Fixture: attribute record of a staff-only video block. -/
def dataStaffVideo : NodeData :=
  { data0 with visible_to_staff_only := true, block_type := "video" }

/-- Fixture: attribute record of a visible html leaf block. -/
def dataHtml : NodeData :=
  { data0 with block_type := "html" }

/-- Fixture: a childless course. -/
def course0 : CNode := .node data0 []

/-- Fixture: a course whose single section is a staff-only video block. -/
def course1 : CNode := .node data0 [.node dataStaffVideo []]

/-- Fixture: a course with one visible section holding one visible
subsection that has no units. -/
def course2 : CNode := .node data0 [.node data0 [.node data0 []]]

/-- Fixture: the childless subsection of `course2`. -/
def sub2 : CNode := .node data0 []

/-- Fixture: a course with one visible section, one visible subsection,
one visible unit holding a single html leaf block. -/
def course3 : CNode := .node data0 [.node data0 [.node data0 [.node data0 [.node dataHtml []]]]]

/-- Fixture: a video metadata service with nothing encoded. -/
def val0 : ValEnv := { encoded := fun _ => false, duration := fun _ => 0 }

/-- Fixture: collaborators granting author access over `course0`. -/
def env0 : Env := { has_course_author_access := true, course := course0, val := val0 }

/-- Fixture: collaborators denying author access. -/
def envNoAccess : Env := { has_course_author_access := false, course := course0, val := val0 }

/-- Fixture: request with every parameter absent. -/
def reqEmpty : Request := { query_params := [] }

/-- Fixture: request supplying only `all=TRUE` (case variation on
purpose). -/
def reqAll : Request := { query_params := [("all", "TRUE")] }

/-- Fixture: request supplying `all=true` and an explicit
`sections=false`. -/
def reqAllSectionsFalse : Request :=
  { query_params := [("all", "true"), ("sections", "false")] }

/-- Fixture: request supplying `all=true` while explicitly switching the
three tree flags off. -/
def reqAllOverridden : Request :=
  { query_params :=
      [("all", "true"), ("units", "false"), ("subsections", "false"), ("sections", "false")] }

/-!  Theorems.  -/

/-- C4: the *encoded* set used by the videos section is a subset of the
video blocks counted in `total_number`; `num_mobile_encoded` is its size,
hence at most `total_number`; `durations` is the statistics summary over
the durations of exactly the records of that subset. -/
theorem c4_theorem (val : ValEnv) (course : CNode) :
    (videos_quality val course).num_mobile_encoded = (get_videos_for_course val course).length ∧
    (videos_quality val course).num_mobile_encoded ≤ (videos_quality val course).total_number ∧
    ((video_blocks course).filter (fun b => val.encoded b.data.edx_video_id)).Sublist
      (video_blocks course) ∧
    (videos_quality val course).durations =
      stats_dict ((get_videos_for_course val course).map (fun v => v.duration)) := by
  refine ⟨rfl, ?_, List.filter_sublist _, rfl⟩
  simp only [videos_quality, get_videos_for_course, List.length_map]
  exact List.length_filter_le _ _

/-- C5: when the principal lacks course-author access the request fails
with the 403 result and no document-store operation is performed. -/
theorem c5_theorem (env : Env) (req : Request)
    (h : env.has_course_author_access = false) :
    course_quality_get env req = (GetResult.forbidden, []) := by
  simp [course_quality_get, h]

/-- C5 witness: a concrete denied request produces the 403 result with an
empty store trace. -/
theorem c5_witness :
    course_quality_get envNoAccess reqEmpty = (GetResult.forbidden, []) :=
  c5_theorem envNoAccess reqEmpty rfl

/-- C8: on a fixed course, excluding graded subsections can only shrink
(or keep) the visible-subsection count. -/
theorem c8_theorem (course : CNode) :
    (subsections_quality course true).total_visible ≤
      (subsections_quality course false).total_visible := by
  simp only [subsections_quality, get_subsections_and_units, List.length_map,
    List.length_flatten, List.map_map, if_true, if_false]
  apply List.sum_le_sum
  intro sec _
  simp only [Function.comp_apply, List.length_map]
  exact List.length_filter_le _ _

/-- Membership in a visibility-filtered list forces both visibility flags
off. -/
theorem mem_filter_visible_flags {l : List CNode} {s : CNode}
    (h : s ∈ l.filter node_visible) :
    s.data.visible_to_staff_only = false ∧ s.data.hide_from_toc = false := by
  have hv := (List.mem_filter.mp h).2
  simpa [node_visible, Bool.and_eq_true, Bool.not_eq_true'] using hv

mutual

/-- Every node yielded by the leaf traversal is the start node itself or
a node that passed the visibility filter on the way down. -/
theorem mem_get_leaf_blocks_cases (c : CNode) (b : CNode) (hb : b ∈ get_leaf_blocks c) :
    b = c ∨ (b.data.visible_to_staff_only = false ∧ b.data.hide_from_toc = false) := by
  cases c with
  | node d cs =>
    rw [get_leaf_blocks] at hb
    by_cases h : cs.isEmpty
    · rw [if_pos h] at hb
      simp only [List.mem_singleton] at hb
      exact Or.inl hb
    · rw [if_neg h] at hb
      exact Or.inr (mem_leaf_blocks_list_flags cs b hb)

/-- Every node yielded by the leaf traversal of a child list passed the
visibility filter. -/
theorem mem_leaf_blocks_list_flags (cs : List CNode) (b : CNode) (hb : b ∈ leaf_blocks_list cs) :
    b.data.visible_to_staff_only = false ∧ b.data.hide_from_toc = false := by
  cases cs with
  | nil => simp [leaf_blocks_list] at hb
  | cons c rest =>
    rw [leaf_blocks_list] at hb
    rcases List.mem_append.mp hb with h1 | h2
    · by_cases hv : node_visible c
      · rw [if_pos hv] at h1
        rcases mem_get_leaf_blocks_cases c b h1 with rfl | hf
        · simpa [node_visible, Bool.and_eq_true, Bool.not_eq_true'] using hv
        · exact hf
      · rw [if_neg hv] at h1
        simp at h1
    · exact mem_leaf_blocks_list_flags rest b h2

end

/-- Each subsection entry of `_get_subsections_and_units` is a node that
passed the visibility filter, and its unit entries likewise. -/
theorem mem_get_subsections_and_units {course : CNode} {eg : Bool}
    {p : CNode × List (CNode × UnitInfo)}
    (hp : p ∈ get_subsections_and_units course eg) :
    (∃ sec ∈ course.children.filter node_visible,
      p.1 ∈ sec.children.filter node_visible) ∧
    p.2 = (p.1.children.filter node_visible).map (fun u => (u, unit_info u)) := by
  rw [get_subsections_and_units] at hp
  rw [List.mem_flatten] at hp
  obtain ⟨l, hl, hpl⟩ := hp
  rw [List.mem_map] at hl
  obtain ⟨sec, hsec, rfl⟩ := hl
  rw [List.mem_map] at hpl
  obtain ⟨sub, hsub, rfl⟩ := hpl
  refine ⟨⟨sec, hsec, ?_⟩, rfl⟩
  by_cases h : eg
  · rw [if_pos h] at hsub
    exact List.mem_of_mem_filter hsub
  · rw [if_neg h] at hsub
    exact hsub

/-- C1 (amended): a staff-only node never appears among the nodes counted
by a `total_visible` count: every counted section, subsection and unit,
and every leaf block collected under a visible unit, has
`visible_to_staff_only = false`.  (The full-scan aggregates
`sections.total_number`, `videos.total_number` and `num_with_val_id` do
count staff-only nodes; see the counterexample.) -/
theorem c1_theorem (course : CNode) (eg : Bool) :
    (sections_quality course).total_visible = (course.children.filter node_visible).length ∧
    (∀ s ∈ course.children.filter node_visible, s.data.visible_to_staff_only = false) ∧
    (∀ p ∈ get_subsections_and_units course eg,
      p.1.data.visible_to_staff_only = false ∧
      ∀ q ∈ p.2, q.1.data.visible_to_staff_only = false ∧
        ∀ b ∈ get_leaf_blocks q.1, b.data.visible_to_staff_only = false) := by
  refine ⟨rfl, fun s hs => (mem_filter_visible_flags hs).1, fun p hp => ?_⟩
  obtain ⟨⟨sec, hsec, hsub⟩, hunits⟩ := mem_get_subsections_and_units hp
  refine ⟨(mem_filter_visible_flags hsub).1, fun q hq => ?_⟩
  rw [hunits, List.mem_map] at hq
  obtain ⟨u, hu, rfl⟩ := hq
  refine ⟨(mem_filter_visible_flags hu).1, fun b hb => ?_⟩
  rcases mem_get_leaf_blocks_cases u b hb with rfl | hf
  · exact (mem_filter_visible_flags hu).1
  · exact hf.1

/-- C1 counterexample: the claim as stated is false — a staff-only node
does contribute to aggregates of the report.  `course1` holds a single
staff-only video section and `course0` is the same course without it:
the node is absent from `total_visible` yet raises `sections.total_number`
and `videos.total_number` from 0 to 1. -/
theorem c1_counterexample :
    (sections_quality course1).total_visible = 0 ∧
    (sections_quality course1).total_number = 1 ∧
    (sections_quality course0).total_number = 0 ∧
    (videos_quality val0 course1).total_number = 1 ∧
    (videos_quality val0 course0).total_number = 0 := by
  refine ⟨rfl, rfl, rfl, ?_, ?_⟩ <;> decide

/-- C1 witness: on the concrete `course3`, the counted subsection, unit
and collected leaf block all carry `visible_to_staff_only = false`. -/
theorem c1_witness :
    (CNode.node data0 [.node data0 [.node dataHtml []]]).data.visible_to_staff_only = false ∧
    (CNode.node data0 [.node dataHtml []]).data.visible_to_staff_only = false ∧
    (CNode.node dataHtml []).data.visible_to_staff_only = false := by
  have hd : get_subsections_and_units course3 false =
      [(CNode.node data0 [.node data0 [.node dataHtml []]],
        [(CNode.node data0 [.node dataHtml []],
          unit_info (CNode.node data0 [.node dataHtml []]))])] := rfl
  have h := (c1_theorem course3 false).2.2
    (CNode.node data0 [.node data0 [.node dataHtml []]],
      [(CNode.node data0 [.node dataHtml []],
        unit_info (CNode.node data0 [.node dataHtml []]))])
    (by rw [hd]; exact List.mem_singleton.mpr rfl)
  have h2 := h.2 (CNode.node data0 [.node dataHtml []],
    unit_info (CNode.node data0 [.node dataHtml []])) (List.mem_singleton.mpr rfl)
  have h3 := h2.2 (CNode.node dataHtml [])
    (by show CNode.node dataHtml [] ∈ get_leaf_blocks (CNode.node data0 [.node dataHtml []])
        have : get_leaf_blocks (CNode.node data0 [.node dataHtml []]) =
          [CNode.node dataHtml []] := rfl
        rw [this]; exact List.mem_singleton.mpr rfl)
  exact ⟨h.1, h2.1, h3⟩

/-- C10: a visible subsection with no visible units is still one dict
entry, so it is counted in `total_visible`; its leaf-block-type union is
empty, contributing the value 0 to the `num_block_types` statistics; and
`num_with_one_block_type` counts exactly the entries with a non-empty
unit list whose union has size one, so it is never counted there. -/
theorem c10_theorem (course : CNode) (eg : Bool) :
    (subsections_quality course eg).total_visible =
      (get_subsections_and_units course eg).length ∧
    (∀ p ∈ get_subsections_and_units course eg, p.2 = [] → num_block_types_of p.2 = 0) ∧
    (subsections_quality course eg).num_block_types =
      stats_dict ((get_subsections_and_units course eg).map
        (fun p => (num_block_types_of p.2 : Rat))) ∧
    (subsections_quality course eg).num_with_one_block_type =
      ((get_subsections_and_units course eg).filter
        (fun p => !p.2.isEmpty && (num_block_types_of p.2 == 1))).length := by
  refine ⟨by simp [subsections_quality], ?_, ?_, ?_⟩
  · intro p _ hp
    rw [hp]
    rfl
  · show stats_dict _ = _
    rw [List.map_map]
    rfl
  · have hpoint : ∀ p ∈ get_subsections_and_units course eg,
        ((fun n => n == 1) ∘ (fun p => num_block_types_of p.2)) p =
          (!p.2.isEmpty && (num_block_types_of p.2 == 1)) := by
      intro p _
      simp only [Function.comp_apply]
      cases hq : p.2 with
      | nil => simp [num_block_types_of]
      | cons a l => simp
    simp only [subsections_quality, List.filter_map, List.length_map]
    rw [List.filter_congr hpoint]

/-- C10 witness: the childless subsection of `course2` is one counted
entry with leaf-block-type union of size zero. -/
theorem c10_witness :
    num_block_types_of ([] : List (CNode × UnitInfo)) = 0 ∧
    (subsections_quality course2 false).total_visible = 1 := by
  have h := c10_theorem course2 false
  have hd : get_subsections_and_units course2 false =
      [(sub2, ([] : List (CNode × UnitInfo)))] := rfl
  refine ⟨h.2.1 (sub2, []) ?_ rfl, ?_⟩
  · rw [hd]
    exact List.mem_singleton.mpr rfl
  · rw [h.1, hd]
    rfl

/-- A fold of `min` never exceeds its initial value. -/
theorem foldl_min_le_init (xs : List Rat) : ∀ a : Rat, xs.foldl min a ≤ a := by
  induction xs with
  | nil => intro a; simp
  | cons x xs ih => intro a; exact le_trans (ih (min a x)) (min_le_left a x)

/-- A fold of `min` never exceeds any list element. -/
theorem foldl_min_le_mem (xs : List Rat) : ∀ a : Rat, ∀ y ∈ xs, xs.foldl min a ≤ y := by
  induction xs with
  | nil => intro a y hy; simp at hy
  | cons x xs ih =>
    intro a y hy
    rcases List.mem_cons.mp hy with rfl | hy
    · exact le_trans (foldl_min_le_init xs (min a y)) (min_le_right a y)
    · exact ih (min a x) y hy

/-- A fold of `min` returns the initial value or a list element. -/
theorem foldl_min_mem (xs : List Rat) : ∀ a : Rat, xs.foldl min a ∈ a :: xs := by
  induction xs with
  | nil => intro a; simp
  | cons x xs ih =>
    intro a
    rw [List.foldl_cons]
    rcases List.mem_cons.mp (ih (min a x)) with h | h
    · rcases min_choice a x with hc | hc
      · rw [h, hc]; exact List.mem_cons_self _ _
      · rw [h, hc]; exact List.mem_cons_of_mem _ (List.mem_cons_self _ _)
    · exact List.mem_cons_of_mem _ (List.mem_cons_of_mem _ h)

/-- A fold of `max` is at least its initial value. -/
theorem le_foldl_max_init (xs : List Rat) : ∀ a : Rat, a ≤ xs.foldl max a := by
  induction xs with
  | nil => intro a; simp
  | cons x xs ih => intro a; exact le_trans (le_max_left a x) (ih (max a x))

/-- A fold of `max` is at least any list element. -/
theorem le_foldl_max_mem (xs : List Rat) : ∀ a : Rat, ∀ y ∈ xs, y ≤ xs.foldl max a := by
  induction xs with
  | nil => intro a y hy; simp at hy
  | cons x xs ih =>
    intro a y hy
    rcases List.mem_cons.mp hy with rfl | hy
    · exact le_trans (le_max_right a y) (le_foldl_max_init xs (max a y))
    · exact ih (max a x) y hy

/-- `listMin` of a non-empty list is a list element. -/
theorem listMin_mem {l : List Rat} (h : l ≠ []) : listMin l ∈ l := by
  cases l with
  | nil => exact absurd rfl h
  | cons x xs => exact foldl_min_mem xs x

/-- `listMin` is a lower bound of the list. -/
theorem listMin_le {l : List Rat} {y : Rat} (hy : y ∈ l) : listMin l ≤ y := by
  cases l with
  | nil => simp at hy
  | cons x xs =>
    rcases List.mem_cons.mp hy with rfl | hy
    · exact foldl_min_le_init xs y
    · exact foldl_min_le_mem xs x y hy

/-- `listMax` is an upper bound of the list. -/
theorem le_listMax {l : List Rat} {y : Rat} (hy : y ∈ l) : y ≤ listMax l := by
  cases l with
  | nil => simp at hy
  | cons x xs =>
    rcases List.mem_cons.mp hy with rfl | hy
    · exact le_foldl_max_init xs y
    · exact le_foldl_max_mem xs x y hy

/-- `np_around` is within one half of its argument, and a distance of
exactly one half forces an even result. -/
theorem np_around_spec (q : Rat) :
    |((np_around q : Int) : Rat) - q| ≤ 1/2 ∧
      (|((np_around q : Int) : Rat) - q| = 1/2 → np_around q % 2 = 0) := by
  have hf : ((⌊q⌋ : Int) : Rat) ≤ q := Int.floor_le q
  have hf1 : q < ((⌊q⌋ : Int) : Rat) + 1 := Int.lt_floor_add_one q
  unfold np_around
  split_ifs with h1 h2 h3
  · constructor
    · rw [abs_le]
      constructor <;> linarith
    · intro habs
      exfalso
      rw [abs_sub_comm, abs_of_nonneg (by linarith)] at habs
      linarith
  · constructor
    · rw [abs_le]
      constructor <;> push_cast <;> linarith
    · intro habs
      exfalso
      rw [abs_of_nonneg (by push_cast; linarith)] at habs
      push_cast at habs
      linarith
  · have heq : q - ((⌊q⌋ : Int) : Rat) = 1/2 := le_antisymm (not_lt.mp h2) (not_lt.mp h1)
    constructor
    · rw [abs_sub_comm, abs_of_nonneg (by linarith), heq]
    · intro _
      exact h3
  · have heq : q - ((⌊q⌋ : Int) : Rat) = 1/2 := le_antisymm (not_lt.mp h2) (not_lt.mp h1)
    constructor
    · rw [abs_of_nonneg (by push_cast; linarith)]
      push_cast
      linarith
    · intro _
      rcases Int.emod_two_eq ⌊q⌋ with he | he
      · exact absurd he h3
      · omega

/-- `np_around` fixes integers. -/
theorem np_around_intCast (k : Int) : np_around ((k : Int) : Rat) = k := by
  unfold np_around
  rw [Int.floor_intCast]
  norm_num

/-- `np_around` lands on the floor or the floor plus one. -/
theorem np_around_bounds (q : Rat) : ⌊q⌋ ≤ np_around q ∧ np_around q ≤ ⌊q⌋ + 1 := by
  unfold np_around
  split_ifs <;> omega

/-- `np_around` of a value between two integers stays between them. -/
theorem np_around_between {a b : Int} {q : Rat} (ha : ((a : Int) : Rat) ≤ q)
    (hb : q ≤ ((b : Int) : Rat)) : a ≤ np_around q ∧ np_around q ≤ b := by
  have hfa : a ≤ ⌊q⌋ := Int.le_floor.mpr ha
  have hfb : (⌊q⌋ : Int) ≤ b := by
    have hc : ((⌊q⌋ : Int) : Rat) ≤ ((b : Int) : Rat) := le_trans (Int.floor_le q) hb
    exact_mod_cast hc
  obtain ⟨h1, h2⟩ := np_around_bounds q
  refine ⟨by omega, ?_⟩
  by_cases hq : (⌊q⌋ : Int) = b
  · have hqb : q = ((b : Int) : Rat) := by
      have hfq := Int.floor_le q
      rw [hq] at hfq
      exact le_antisymm hb hfq
    rw [hqb, np_around_intCast]
  · omega

/-- `_stats_dict` on non-empty data, written out. -/
theorem stats_dict_eq_of_ne {data : List Rat} (h : data ≠ []) :
    stats_dict data =
      { min := some (listMin data)
        max := some (listMax data)
        mean := some ((np_around (np_mean data) : Int) : Rat)
        median := some ((np_around (np_median data) : Int) : Rat)
        mode := some (scipy_mode data) } := by
  unfold stats_dict
  rw [if_neg]
  simpa [List.isEmpty_iff] using h

/-- The median of non-empty data lies between two data elements. -/
theorem np_median_bounds {data : List Rat} (h : data ≠ []) :
    ∃ a ∈ data, ∃ b ∈ data, a ≤ np_median data ∧ np_median data ≤ b := by
  have hperm := List.perm_insertionSort (α := Rat) (· ≤ ·) data
  have hlen : (data.insertionSort (· ≤ ·)).length = data.length := hperm.length_eq
  have hsorted := List.sorted_insertionSort (α := Rat) (· ≤ ·) data
  have hn : 0 < data.length := List.length_pos.mpr h
  unfold np_median
  by_cases hodd : data.length % 2 = 1
  · rw [if_pos hodd]
    have hlt : data.length / 2 < (data.insertionSort (· ≤ ·)).length := by
      rw [hlen]; omega
    rw [List.getD_eq_getElem _ _ hlt]
    have hmem : (data.insertionSort (· ≤ ·))[data.length / 2] ∈ data :=
      hperm.mem_iff.mp (List.getElem_mem hlt)
    exact ⟨_, hmem, _, hmem, le_refl _, le_refl _⟩
  · rw [if_neg hodd]
    have hi1 : data.length / 2 - 1 < (data.insertionSort (· ≤ ·)).length := by
      rw [hlen]; omega
    have hi2 : data.length / 2 < (data.insertionSort (· ≤ ·)).length := by
      rw [hlen]; omega
    rw [List.getD_eq_getElem _ _ hi1, List.getD_eq_getElem _ _ hi2]
    have ha : (data.insertionSort (· ≤ ·))[data.length / 2 - 1] ∈ data :=
      hperm.mem_iff.mp (List.getElem_mem hi1)
    have hb : (data.insertionSort (· ≤ ·))[data.length / 2] ∈ data :=
      hperm.mem_iff.mp (List.getElem_mem hi2)
    have hab : (data.insertionSort (· ≤ ·))[data.length / 2 - 1] ≤
        (data.insertionSort (· ≤ ·))[data.length / 2] := by
      have h2le : 2 ≤ data.length := by omega
      have hfin : (⟨data.length / 2 - 1, hi1⟩ : Fin (data.insertionSort (· ≤ ·)).length) <
          ⟨data.length / 2, hi2⟩ := by
        simp only [Fin.mk_lt_mk]
        omega
      have hrel := List.Sorted.rel_get_of_lt hsorted hfin
      simpa [List.get_eq_getElem] using hrel
    exact ⟨_, ha, _, hb, by linarith, by linarith⟩

/-- For a non-empty list and any weighting there is a member attaining
the greatest weight. -/
theorem exists_argmax (f : Rat → Nat) : ∀ {l : List Rat}, l ≠ [] →
    ∃ x ∈ l, ∀ y ∈ l, f y ≤ f x := by
  intro l
  induction l with
  | nil => intro h; exact absurd rfl h
  | cons a t ih =>
    intro _
    cases t with
    | nil => exact ⟨a, by simp, by simp⟩
    | cons b u =>
      obtain ⟨x, hx, hmax⟩ := ih (by simp)
      by_cases hc : f a ≤ f x
      · refine ⟨x, List.mem_cons_of_mem _ hx, ?_⟩
        intro y hy
        rcases List.mem_cons.mp hy with rfl | hy
        · exact hc
        · exact hmax y hy
      · refine ⟨a, List.mem_cons_self _ _, ?_⟩
        intro y hy
        rcases List.mem_cons.mp hy with rfl | hy
        · exact le_refl _
        · exact le_trans (hmax y hy) (le_of_not_le hc)

/-- The modelled scipy mode of non-empty data is a member of greatest
multiplicity, and the least one among ties. -/
theorem scipy_mode_spec {data : List Rat} (h : data ≠ []) :
    scipy_mode data ∈ data ∧
      (∀ y ∈ data, data.count y ≤ data.count (scipy_mode data)) ∧
      (∀ y ∈ data, data.count y = data.count (scipy_mode data) → scipy_mode data ≤ y) := by
  obtain ⟨x, hx, hmax⟩ := exists_argmax (fun y => data.count y) h
  have hxf : x ∈ data.filter (fun x => data.all (fun y => data.count y ≤ data.count x)) := by
    rw [List.mem_filter]
    refine ⟨hx, ?_⟩
    rw [List.all_eq_true]
    intro y hy
    simpa using hmax y hy
  have hne : data.filter (fun x => data.all (fun y => data.count y ≤ data.count x)) ≠ [] :=
    List.ne_nil_of_mem hxf
  have hmem : scipy_mode data ∈
      data.filter (fun x => data.all (fun y => data.count y ≤ data.count x)) := by
    unfold scipy_mode
    exact listMin_mem hne
  have hgood := (List.mem_filter.mp hmem).2
  rw [List.all_eq_true] at hgood
  refine ⟨(List.mem_filter.mp hmem).1, fun y hy => by simpa using hgood y hy, ?_⟩
  intro y hy hcount
  have hyf : y ∈ data.filter (fun x => data.all (fun y => data.count y ≤ data.count x)) := by
    rw [List.mem_filter]
    refine ⟨hy, ?_⟩
    rw [List.all_eq_true]
    intro z hz
    simp only [decide_eq_true_eq]
    calc data.count z ≤ data.count (scipy_mode data) := by simpa using hgood z hz
      _ = data.count y := hcount.symm
  unfold scipy_mode
  exact listMin_le hyf

/-- C7: `mode` is a most frequent value of the data, and among tied
values it is the smallest. -/
theorem c7_theorem (data : List Rat) (h : data ≠ []) :
    ∃ mo, (stats_dict data).mode = some mo ∧ mo ∈ data ∧
      (∀ y ∈ data, data.count y ≤ data.count mo) ∧
      (∀ y ∈ data, data.count y = data.count mo → mo ≤ y) := by
  obtain ⟨h1, h2, h3⟩ := scipy_mode_spec h
  exact ⟨scipy_mode data, by rw [stats_dict_eq_of_ne h], h1, h2, h3⟩

/-- C7 witness: on `[2, 1, 2, 1]` the mode exists with the stated
properties (both values are tied with multiplicity two, so it is the
smaller one). -/
theorem c7_witness :
    (([2, 1, 2, 1] : List Rat) ≠ []) ∧
    ∃ mo, (stats_dict [2, 1, 2, 1]).mode = some mo ∧ mo ∈ ([2, 1, 2, 1] : List Rat) ∧
      (∀ y ∈ ([2, 1, 2, 1] : List Rat),
        List.count y [2, 1, 2, 1] ≤ List.count mo [2, 1, 2, 1]) ∧
      (∀ y ∈ ([2, 1, 2, 1] : List Rat),
        List.count y [2, 1, 2, 1] = List.count mo [2, 1, 2, 1] → mo ≤ y) :=
  ⟨by simp, c7_theorem [2, 1, 2, 1] (by simp)⟩

/-- C3 (amended): `mean` and `median` are the exact arithmetic mean and
median rounded to the nearest integer with ties to the even integer
(numpy rounding), not away from zero. -/
theorem c3_theorem (data : List Rat) (h : data ≠ []) :
    ∃ m d : Int, (stats_dict data).mean = some ((m : Int) : Rat) ∧
      (stats_dict data).median = some ((d : Int) : Rat) ∧
      |((m : Int) : Rat) - np_mean data| ≤ 1/2 ∧
      (|((m : Int) : Rat) - np_mean data| = 1/2 → m % 2 = 0) ∧
      |((d : Int) : Rat) - np_median data| ≤ 1/2 ∧
      (|((d : Int) : Rat) - np_median data| = 1/2 → d % 2 = 0) := by
  refine ⟨np_around (np_mean data), np_around (np_median data), ?_, ?_,
    (np_around_spec (np_mean data)).1, (np_around_spec (np_mean data)).2,
    (np_around_spec (np_median data)).1, (np_around_spec (np_median data)).2⟩
  · rw [stats_dict_eq_of_ne h]
  · rw [stats_dict_eq_of_ne h]

/-- C3 witness: on `[1, 2]` the rounded mean and median exist and satisfy
the tie-to-even characterisation. -/
theorem c3_witness :
    (([1, 2] : List Rat) ≠ []) ∧
    ∃ m d : Int, (stats_dict [1, 2]).mean = some ((m : Int) : Rat) ∧
      (stats_dict [1, 2]).median = some ((d : Int) : Rat) ∧
      |((m : Int) : Rat) - np_mean [1, 2]| ≤ 1/2 ∧
      (|((m : Int) : Rat) - np_mean [1, 2]| = 1/2 → m % 2 = 0) ∧
      |((d : Int) : Rat) - np_median [1, 2]| ≤ 1/2 ∧
      (|((d : Int) : Rat) - np_median [1, 2]| = 1/2 → d % 2 = 0) :=
  ⟨by simp, c3_theorem [1, 2] (by simp)⟩

/-- C3 counterexample: on `[2, 3]` the exact mean is `5/2`; the code
rounds it to `2` (ties to even) while rounding away from zero gives `3`. -/
theorem c3_counterexample :
    np_mean ([2, 3] : List Rat) = 5/2 ∧
    (stats_dict [2, 3]).mean = some ((2 : Rat)) ∧
    round_half_away_from_zero (np_mean ([2, 3] : List Rat)) = 3 ∧
    (stats_dict [2, 3]).mean ≠
      some ((round_half_away_from_zero (np_mean ([2, 3] : List Rat)) : Int) : Rat) := by
  have hmean : np_mean ([2, 3] : List Rat) = 5/2 := by
    unfold np_mean
    norm_num
  have hfloor : (⌊(5/2 : Rat)⌋ : Int) = 2 := by norm_num
  have haround : np_around (5/2 : Rat) = 2 := by
    unfold np_around
    rw [hfloor]
    rw [if_neg (by push_cast; norm_num), if_neg (by push_cast; norm_num),
      if_pos (by norm_num)]
  have hrhaz : round_half_away_from_zero (5/2 : Rat) = 3 := by
    unfold round_half_away_from_zero
    rw [if_pos (by norm_num)]
    norm_num
  have hm : (stats_dict ([2, 3] : List Rat)).mean = some ((2 : Rat)) := by
    rw [stats_dict_eq_of_ne (by simp), hmean, haround]
    norm_num
  refine ⟨hmean, hm, by rw [hmean, hrhaz], ?_⟩
  rw [hm, hmean, hrhaz]
  norm_num

/-- C6 (amended): the rounded mean is within one half of the exact
arithmetic mean for every non-empty data list; for integer-valued data
the rounded median lies between `min` and `max` (for fractional data it
can escape that interval, see the counterexample). -/
theorem c6_theorem (data : List Rat) (h : data ≠ []) :
    (∃ m : Int, (stats_dict data).mean = some ((m : Int) : Rat) ∧
      |((m : Int) : Rat) - np_mean data| ≤ 1/2) ∧
    ((∀ x ∈ data, ∃ k : Int, x = ((k : Int) : Rat)) →
      ∃ mn md mx : Rat, (stats_dict data).min = some mn ∧
        (stats_dict data).median = some md ∧ (stats_dict data).max = some mx ∧
        mn ≤ md ∧ md ≤ mx) := by
  constructor
  · exact ⟨np_around (np_mean data), by rw [stats_dict_eq_of_ne h],
      (np_around_spec (np_mean data)).1⟩
  · intro hints
    obtain ⟨a, hamem, b, hbmem, ham, hbm⟩ := np_median_bounds h
    obtain ⟨ka, hka⟩ := hints a hamem
    obtain ⟨kb, hkb⟩ := hints b hbmem
    rw [hka] at ham hamem
    rw [hkb] at hbm hbmem
    obtain ⟨hlow, hhigh⟩ := np_around_between ham hbm
    refine ⟨listMin data, ((np_around (np_median data) : Int) : Rat), listMax data,
      by rw [stats_dict_eq_of_ne h], by rw [stats_dict_eq_of_ne h],
      by rw [stats_dict_eq_of_ne h], ?_, ?_⟩
    · calc listMin data ≤ ((ka : Int) : Rat) := listMin_le hamem
        _ ≤ _ := Int.cast_le.mpr hlow
    · calc ((np_around (np_median data) : Int) : Rat) ≤ ((kb : Int) : Rat) :=
          Int.cast_le.mpr hhigh
        _ ≤ listMax data := le_listMax hbmem

/-- C6 witness: on `[1, 2]` the rounded mean is within one half of `3/2`
and the min-median-max chain holds. -/
theorem c6_witness :
    (([1, 2] : List Rat) ≠ []) ∧
    (∃ m : Int, (stats_dict [1, 2]).mean = some ((m : Int) : Rat) ∧
      |((m : Int) : Rat) - np_mean [1, 2]| ≤ 1/2) ∧
    (∃ mn md mx : Rat, (stats_dict [1, 2]).min = some mn ∧
      (stats_dict [1, 2]).median = some md ∧ (stats_dict [1, 2]).max = some mx ∧
      mn ≤ md ∧ md ≤ mx) := by
  have h := c6_theorem [1, 2] (by simp)
  refine ⟨by simp, h.1, h.2 ?_⟩
  intro x hx
  rcases List.mem_cons.mp hx with rfl | hx
  · exact ⟨1, by norm_num⟩
  · obtain rfl := List.mem_singleton.mp hx
    exact ⟨2, by norm_num⟩

/-- C6 counterexample: on the fractional singleton `[3/5]` the code
reports `min = max = 3/5` but `median = 1`, so `median ≤ max` fails. -/
theorem c6_counterexample :
    (stats_dict [(3 : Rat)/5]).median = some ((1 : Rat)) ∧
    (stats_dict [(3 : Rat)/5]).max = some ((3 : Rat)/5) ∧
    ¬ ((1 : Rat) ≤ 3/5) := by
  have hmed : np_median ([(3 : Rat)/5] : List Rat) = 3/5 := by
    unfold np_median
    simp [List.insertionSort, List.orderedInsert]
  have hfloor : (⌊((3 : Rat)/5)⌋ : Int) = 0 := by norm_num
  have haround : np_around ((3 : Rat)/5) = 1 := by
    unfold np_around
    rw [hfloor]
    rw [if_neg (by push_cast; norm_num), if_pos (by push_cast; norm_num)]
    norm_num
  refine ⟨?_, ?_, by norm_num⟩
  · rw [stats_dict_eq_of_ne (by simp), hmed, haround]
    norm_num
  · rw [stats_dict_eq_of_ne (by simp)]
    simp [listMax]

/-- When a parameter is absent or does not parse as false, a true default
carries through `get_bool_param`. -/
theorem get_bool_param_default_true {req : Request} {name : String}
    (h : ∀ v, req.query_params.lookup name = some v → lowerStr v ≠ "false") :
    get_bool_param req name true = true := by
  unfold get_bool_param parse_bool
  cases hl : req.query_params.lookup name with
  | none => rfl
  | some v =>
    show (if lowerStr v = "true" then some true
      else if lowerStr v = "false" then some false else none).getD true = true
    by_cases ht : lowerStr v = "true"
    · rw [if_pos ht]
      rfl
    · rw [if_neg ht, if_neg (h v hl)]
      rfl

/-- C2 (amended): when `all` parses to true and the principal has access,
a response is produced and each individual report section whose own
parameter is absent or does not parse to false is present in it,
independently of the values of the other parameters; an explicit false
still disables its own section (see the counterexample). -/
theorem c2_theorem (env : Env) (req : Request)
    (hacc : env.has_course_author_access = true)
    (hall : get_bool_param req "all" false = true) :
    ∃ r, (course_quality_get env req).1 = GetResult.ok r ∧
      ((∀ v, req.query_params.lookup ("sections") = some v → lowerStr v ≠ "false") →
        r.sections.isSome = true) ∧
      ((∀ v, req.query_params.lookup ("subsections") = some v → lowerStr v ≠ "false") →
        r.subsections.isSome = true) ∧
      ((∀ v, req.query_params.lookup ("units") = some v → lowerStr v ≠ "false") →
        r.units.isSome = true) ∧
      ((∀ v, req.query_params.lookup ("videos") = some v → lowerStr v ≠ "false") →
        r.videos.isSome = true) := by
  have hred : (course_quality_get env req).1 = GetResult.ok
      { is_self_paced := env.course.data.self_paced
        sections :=
          if get_bool_param req "sections" (get_bool_param req "all" false) then
            some (sections_quality env.course)
          else none
        subsections :=
          if get_bool_param req "subsections" (get_bool_param req "all" false) then
            some (subsections_quality env.course (get_bool_param req "exclude_graded" false))
          else none
        units :=
          if get_bool_param req "units" (get_bool_param req "all" false) then
            some (units_quality env.course (get_bool_param req "exclude_graded" false))
          else none
        videos :=
          if get_bool_param req "videos" (get_bool_param req "all" false) then
            some (videos_quality env.val env.course)
          else none } := by
    simp only [course_quality_get, hacc, Bool.true_eq_false, if_false]
  refine ⟨_, hred, ?_, ?_, ?_, ?_⟩ <;> intro hp <;>
    simp [hall, get_bool_param_default_true hp]

/-- C2 witness: on the concrete mixed request `all=true, sections=false`
with access granted, the three sections whose own parameters are absent
are all present in the response. -/
theorem c2_witness :
    env0.has_course_author_access = true ∧
    get_bool_param reqAllSectionsFalse "all" false = true ∧
    ∃ r, (course_quality_get env0 reqAllSectionsFalse).1 = GetResult.ok r ∧
      r.subsections.isSome = true ∧ r.units.isSome = true ∧ r.videos.isSome = true := by
  refine ⟨rfl, by decide, ?_⟩
  obtain ⟨r, hr, _, hsub, hunit, hvid⟩ := c2_theorem env0 reqAllSectionsFalse rfl (by decide)
  exact ⟨r, hr, hsub (fun v hv => Option.noConfusion hv),
    hunit (fun v hv => Option.noConfusion hv), hvid (fun v hv => Option.noConfusion hv)⟩

/-- C2 counterexample: with `all=true` but an explicit `sections=false`,
the response is produced yet carries no `sections` entry, refuting the
claim that `all` forces every section on regardless of individual
flags. -/
theorem c2_counterexample :
    get_bool_param reqAllSectionsFalse "all" false = true ∧
    (course_quality_get env0 reqAllSectionsFalse).1.sectionsPart = none ∧
    (course_quality_get env0 reqAllSectionsFalse).1 ≠ GetResult.forbidden := by
  refine ⟨by decide, by decide, by decide⟩

/-- C9 (amended): the depth hint is `None` (full subtree) when the
effective `units` or `subsections` flag is on, one level when only the
effective `sections` flag is on, and zero otherwise, where each effective
flag defaults to the value of `all` only when the parameter itself is
absent or unparseable; and the course load records exactly this depth. -/
theorem c9_theorem (req : Request) (all_requested : Bool) :
    ((get_bool_param req "units" all_requested = true ∨
        get_bool_param req "subsections" all_requested = true) →
      required_course_depth req all_requested = none) ∧
    (get_bool_param req "units" all_requested = false →
      get_bool_param req "subsections" all_requested = false →
      get_bool_param req "sections" all_requested = true →
      required_course_depth req all_requested = some 1) ∧
    (get_bool_param req "units" all_requested = false →
      get_bool_param req "subsections" all_requested = false →
      get_bool_param req "sections" all_requested = false →
      required_course_depth req all_requested = some 0) ∧
    (∀ env : Env, env.has_course_author_access = true →
      (course_quality_get env req).2.head? =
        some (StoreOp.getCourse (required_course_depth req (get_bool_param req "all" false)))) := by
  refine ⟨?_, ?_, ?_, ?_⟩
  · intro hor
    rcases hor with hu | hs
    · simp [required_course_depth, hu]
    · by_cases hu : get_bool_param req "units" all_requested
      · simp [required_course_depth, hu]
      · simp [required_course_depth, hu, hs]
  · intro hu hs hsec
    simp [required_course_depth, hu, hs, hsec]
  · intro hu hs hsec
    simp [required_course_depth, hu, hs, hsec]
  · intro env hacc
    simp [course_quality_get, hacc]

/-- C9 witness: with every parameter absent and `all` effective, the
`units` flag is on and the depth hint is `None` (full subtree). -/
theorem c9_witness :
    get_bool_param reqEmpty "units" true = true ∧
    required_course_depth reqEmpty true = none :=
  ⟨by decide, (c9_theorem reqEmpty true).1 (Or.inl (by decide))⟩

/-- C9 counterexample: with `all=true` while `units`, `subsections` and
`sections` are each explicitly `false`, the code loads depth zero, not
the full subtree the claim derives from treating `all` as requesting
everything. -/
theorem c9_counterexample :
    get_bool_param reqAllOverridden "all" false = true ∧
    required_course_depth reqAllOverridden
      (get_bool_param reqAllOverridden "all" false) = some 0 ∧
    some 0 ≠ (none : Option Nat) := by
  refine ⟨by decide, by decide, by decide⟩

end CourseQuality
